import Mathlib

/-!
A shallow embedding of the copy-trading Monte Carlo simulation engine from
`src/backend/src/services/simulator.ts` of the polymarket-tracker repository.

Modelling conventions:
* JavaScript numbers are modelled as real numbers (`ℝ`); `Math.sqrt` is
  `Real.sqrt`, `Math.floor` is `Int.floor`, `Math.round x` is `⌊x + 1/2⌋`
  (round half towards +∞, as in JS), `Math.min`/`Math.max` are `min`/`max`.
* A JavaScript `Map` is modelled as an insertion-ordered association list:
  `set` of an existing key overwrites in place, `set` of a fresh key appends.
* The JS falsy-default idiom `x || d` on numbers is `orElseNum`/`orElseVal`
  (`0`, like `undefined`, selects the default); on strings it is `orElseStr`
  (the empty string selects the default).
* The mutable LCG seed captured by the `seededRandom` closure is threaded
  explicitly: `lcg` is one step of `seed = (seed * 9301 + 49297) % 233280`
  (`Int.tmod` matches the sign behaviour of the JS `%` operator) and a draw
  reads the updated seed divided by 233280.
* The external collaborators and ambient values read by `runSimulation`
  (`dataStore.getLeaderboard`, `dataStore.getTradesSince`,
  `dataStore.getMarket`, `config.GBP_USD_RATE`, `Date.now()`, and the initial
  RNG seed, which the source also takes from `Date.now()`) are passed in as
  explicit inputs (`SimInputs` plus a `seed` argument).
* Fields of the source's `SimulationResults` that are pure narration or
  ambient (the `uuidv4` simulation id, the `config` echo, the prose
  `disclaimer`, and the `simulationLog` whose entries embed wall-clock
  durations) are not part of the embedded report; every numeric/structural
  output field is.
* The ISO calendar-date key `new Date(t*1000).toISOString().split('T')[0]`
  is modelled by the UTC day index `⌊t*1000/86400000⌋`, which induces the
  same grouping and the same (lexicographic = chronological) order.
-/

noncomputable section

namespace Polymarket

/-- Trade side, source type `'BUY' | 'SELL'`. -/
inductive Side where
  | BUY
  | SELL
deriving DecidableEq

/-- `side === 'BUY' ? 1 : -1`. -/
def sideSign (side : Side) : ℝ := if side = Side.BUY then 1 else -1

/-- The fields of `Trade` (models/types.ts) that the simulator reads.
Optional `usdcSize` stays an `Option`; unused metadata fields are omitted. -/
structure Trade where
  walletAddress : String
  conditionId : String
  tokenId : String
  side : Side
  outcome : String
  size : ℝ
  price : ℝ
  usdcSize : Option ℝ
  timestamp : ℝ

/-- `OrderbookSnapshot` (models/types.ts), numeric fields used by the fill
model plus the quote fields; the optional `fullBook` is never read. -/
structure OrderbookSnapshot where
  tokenId : String
  timestamp : ℝ
  bestBid : ℝ
  bestAsk : ℝ
  midPrice : ℝ
  spreadBps : ℝ
  bidDepth100bps : ℝ
  askDepth100bps : ℝ
  bidDepth500bps : ℝ
  askDepth500bps : ℝ

/-- The source's `sizingRule: 'equal' | 'proportional'`. -/
inductive SizingRule where
  | equal
  | proportional
deriving DecidableEq

/-- `SimulationConfig` (models/types.ts).  `numSimulations` is the trial
count used as a loop bound, modelled as `ℕ`. -/
structure SimulationConfig where
  bankrollGbp : ℝ
  entryDelaySec : ℝ
  delayVarianceSec : ℝ
  sizingRule : SizingRule
  maxExposurePct : ℝ
  minTradeUsd : ℝ
  useActualOrderbook : Bool
  marketImpactEnabled : Bool
  numSimulations : ℕ
  windowDays : ℝ

/-- The fields of `Market` (models/types.ts) read by the orchestrator. -/
structure Market where
  title : Option String
  isClosed : Bool
  winningOutcome : Option String
  dailyVolume : Option ℝ
  lastPriceYes : Option ℝ

/-- `FillResult` (simulator.ts).  `filled` is the proposition
`fillRatio >= 0.95` (a JS boolean); `fillFraction` is the source's
`fillRatio` field. -/
structure FillResult where
  avgPrice : ℝ
  slippageBps : ℝ
  filled : Prop
  fillFraction : ℝ

/-- JS `x || d` for an optional number (`undefined` and `0` are falsy). -/
def orElseNum (x : Option ℝ) (d : ℝ) : ℝ :=
  match x with
  | some v => if v = 0 then d else v
  | none => d

/-- JS `x || d` for a number (`0` is falsy). -/
def orElseVal (v d : ℝ) : ℝ := if v = 0 then d else v

/-- JS `s || d` for an optional string (`undefined` and `""` are falsy). -/
def orElseStr (x : Option String) (d : String) : String :=
  match x with
  | some s => if s = "" then d else s
  | none => d

/-- JS `Math.round`: round half towards positive infinity. -/
def jsRound (x : ℝ) : ℤ := ⌊x + 1/2⌋

/-- Lookup in an insertion-ordered association list (JS `Map.get`). -/
def mapGet {κ α : Type} [DecidableEq κ] : List (κ × α) → κ → Option α
  | [], _ => none
  | (k, v) :: rest, key => if k = key then some v else mapGet rest key

/-- Update in an insertion-ordered association list (JS `Map.set`):
overwrite the existing entry in place, else append. -/
def mapSet {κ α : Type} [DecidableEq κ] : List (κ × α) → κ → α → List (κ × α)
  | [], key, val => [(key, val)]
  | (k, v) :: rest, key, val =>
    if k = key then (k, val) :: rest else (k, v) :: mapSet rest key val

/-- One step of the seeded LCG: `seed = (seed * 9301 + 49297) % 233280`. -/
def lcg (s : ℤ) : ℤ := (s * 9301 + 49297).tmod 233280

/-- The value produced by one call of `seededRandom` started from seed `s`
(the updated seed is `lcg s`). -/
def randOf (s : ℤ) : ℝ := ((lcg s : ℤ) : ℝ) / 233280

/-- `relevantDepth` (simulator.ts line 52): near-touch depth for the side. -/
def relevantDepthOf (side : Side) (ob : OrderbookSnapshot) : ℝ :=
  if side = Side.BUY then ob.askDepth100bps else ob.bidDepth100bps

/-- `deeperDepth` (simulator.ts line 53): wider-tier depth for the side. -/
def deeperDepthOf (side : Side) (ob : OrderbookSnapshot) : ℝ :=
  if side = Side.BUY then ob.askDepth500bps else ob.bidDepth500bps

/-- The fill ratio computed from the orderbook depths
(simulator.ts lines 55-63): reduced below 1 only when the notional exceeds
both depth tiers. -/
def fillFractionOf (side : Side) (sizeUsd : ℝ) (ob : OrderbookSnapshot) : ℝ :=
  if sizeUsd > relevantDepthOf side ob ∧ sizeUsd > deeperDepthOf side ob then
    min 1 (deeperDepthOf side ob / sizeUsd)
  else 1

/-- The liquidity-based part of the orderbook-path slippage
(simulator.ts lines 56-69), before market impact and rounding. -/
def liquiditySlippageOf (side : Side) (sizeUsd : ℝ) (ob : OrderbookSnapshot) : ℝ :=
  if sizeUsd > relevantDepthOf side ob then
    if sizeUsd > deeperDepthOf side ob then (500 : ℝ)
    else ob.spreadBps / 2 + (sizeUsd / relevantDepthOf side ob) * 100
  else ob.spreadBps / 2

/-- `calculateRealisticFill` (simulator.ts lines 30-90).  All arguments are
explicit (the source's defaults `dailyVolume = 100000`, `basePrice = 0.5`
are always supplied at call sites). -/
def calculateRealisticFill (side : Side) (sizeUsd : ℝ)
    (orderbook : Option OrderbookSnapshot) (marketImpactEnabled : Bool)
    (dailyVolume : ℝ) (basePrice : ℝ) : FillResult :=
  match orderbook with
  | none =>
    let baseSlippage := min 50 (Real.sqrt (sizeUsd / 100) * 10)
    let slippageMultiplier := 1 + sideSign side * (baseSlippage / 10000)
    { avgPrice := max 0.001 (min 0.999 (basePrice * slippageMultiplier))
      slippageBps := baseSlippage
      filled := True
      fillFraction := 1 }
  | some ob =>
    let fillFraction := fillFractionOf side sizeUsd ob
    let slippageBps :=
      if marketImpactEnabled = true ∧ dailyVolume > 0 then
        liquiditySlippageOf side sizeUsd ob + Real.sqrt (sizeUsd / dailyVolume) * 100
      else liquiditySlippageOf side sizeUsd ob
    let avgPrice := ob.midPrice * (1 + sideSign side * (slippageBps / 10000))
    { avgPrice := max 0.001 (min 0.999 avgPrice)
      slippageBps := ((jsRound slippageBps : ℤ) : ℝ)
      filled := fillFraction ≥ 0.95
      fillFraction := fillFraction }

/-- `MarketCache` (simulator.ts lines 101-106), the per-run read-only cache
entry built from a `Market` row with falsy defaults already applied. -/
structure MarketCache where
  dailyVolume : ℝ
  isClosed : Bool
  winningOutcome : Option String
  lastPriceYes : ℝ

/-- `SimulationContext` (simulator.ts lines 108-116).  `gbpUsdRate` models
the `config.GBP_USD_RATE` global read inside `runSingleSimulation`. -/
structure SimulationContext where
  cfg : SimulationConfig
  initialCash : ℝ
  allocationPerTrader : ℝ
  maxExposureUsd : ℝ
  traderVolumes : List (String × ℝ)
  marketCache : List (String × MarketCache)
  tradesPerTrader : ℝ
  gbpUsdRate : ℝ

/-- A value of the `positions` map of `PortfolioState`. -/
structure Position where
  size : ℝ
  avgPrice : ℝ
  outcome : String
  conditionId : String

/-- `SimulatedTrade` (models/types.ts); `partialFill` is a JS boolean,
modelled as the proposition it decides. -/
structure SimulatedTrade where
  originalTrade : Trade
  simulatedEntryTime : ℝ
  intendedPrice : ℝ
  actualEntryPrice : ℝ
  priceMovement : ℝ
  slippageBps : ℝ
  positionSize : ℝ
  positionSizeUsd : ℝ
  exitPrice : ℝ
  pnl : ℝ
  partialFill : Prop
  marketImpact : ℝ

/-- The mutable per-trial state of `runSingleSimulation`: `PortfolioState`
(cash and positions) together with the trial's log, PnL maps, exposure map,
and the threaded RNG seed. -/
structure TrialState where
  cash : ℝ
  positions : List (String × Position)
  tradeLog : List SimulatedTrade
  dailyPnl : List (ℤ × ℝ)
  marketPnl : List (String × ℝ)
  marketExposure : List (String × ℝ)
  seed : ℤ

/-- `trade.usdcSize || trade.size * trade.price`. -/
def tradeUsdOf (t : Trade) : ℝ := orElseNum t.usdcSize (t.size * t.price)

/-- Entry delay `cfg.entryDelaySec + (rng() - 0.5) * 2 * cfg.delayVarianceSec`
for the first RNG draw from seed `s`. -/
def delayOf (cfg : SimulationConfig) (s : ℤ) : ℝ :=
  cfg.entryDelaySec + (randOf s - 0.5) * 2 * cfg.delayVarianceSec

/-- Price drift `(rng() - 0.5) * 0.02` of the second RNG draw from seed `s`. -/
def driftOf (s : ℤ) : ℝ := (randOf (lcg s) - 0.5) * 0.02

/-- `priceAtEntry = trade.price * (1 + drift)`. -/
def priceAtEntryOf (t : Trade) (s : ℤ) : ℝ := t.price * (1 + driftOf s)

/-- Position size before the exposure cap (simulator.ts lines 150-160). -/
def positionSizeUsdOf (ctx : SimulationContext) (t : Trade) : ℝ :=
  match ctx.cfg.sizingRule with
  | SizingRule.equal => max 5 (min 50 (ctx.initialCash / 20))
  | SizingRule.proportional =>
    let traderVolume := orElseNum (mapGet ctx.traderVolumes t.walletAddress) (tradeUsdOf t)
    max 5 (min 100 ((tradeUsdOf t / traderVolume) * ctx.allocationPerTrader))

/-- `marketExposure.get(trade.conditionId) || 0`. -/
def currentExposureOf (st : TrialState) (t : Trade) : ℝ :=
  orElseNum (mapGet st.marketExposure t.conditionId) 0

/-- Position size after trimming to the per-market exposure headroom
(simulator.ts lines 162-166). -/
def clippedSizeOf (ctx : SimulationContext) (st : TrialState) (t : Trade) : ℝ :=
  let ps := positionSizeUsdOf ctx t
  let cur := currentExposureOf st t
  if cur + ps > ctx.maxExposureUsd then max 0 (ctx.maxExposureUsd - cur) else ps

/-- `ctx.marketCache.get(trade.conditionId)?.dailyVolume || 100000`. -/
def dailyVolumeOf (ctx : SimulationContext) (t : Trade) : ℝ :=
  orElseNum ((mapGet ctx.marketCache t.conditionId).map MarketCache.dailyVolume) 100000

/-- The fill computed in the hot loop: no orderbook is passed
(simulator.ts lines 174-181). -/
def fillOf (ctx : SimulationContext) (st : TrialState) (t : Trade) : FillResult :=
  calculateRealisticFill t.side (clippedSizeOf ctx st t) none
    ctx.cfg.marketImpactEnabled (dailyVolumeOf ctx t) (priceAtEntryOf t st.seed)

/-- `actualSizeUsd = positionSizeUsd * fill.fillRatio`. -/
def actualSizeUsdOf (ctx : SimulationContext) (st : TrialState) (t : Trade) : ℝ :=
  clippedSizeOf ctx st t * FillResult.fillFraction (fillOf ctx st t)

/-- `shares = actualSizeUsd / fill.avgPrice`. -/
def sharesOf (ctx : SimulationContext) (st : TrialState) (t : Trade) : ℝ :=
  actualSizeUsdOf ctx st t / FillResult.avgPrice (fillOf ctx st t)

/-- Position-map key `` `${trade.conditionId}_${trade.outcome}` ``. -/
def posKeyOf (t : Trade) : String := t.conditionId ++ "_" ++ t.outcome

/-- The UTC day index of a trade timestamp (seconds): models the grouping
key `new Date(t*1000).toISOString().split('T')[0]`. -/
def dateKeyOf (ts : ℝ) : ℤ := ⌊ts * 1000 / 86400000⌋

/-- The audit-log entry pushed for a processed trade
(simulator.ts lines 218-233). -/
def logEntryOf (ctx : SimulationContext) (st : TrialState) (t : Trade) : SimulatedTrade :=
  { originalTrade := t
    simulatedEntryTime := t.timestamp + delayOf ctx.cfg st.seed * 1000
    intendedPrice := t.price
    actualEntryPrice := FillResult.avgPrice (fillOf ctx st t)
    priceMovement := priceAtEntryOf t st.seed - t.price
    slippageBps := FillResult.slippageBps (fillOf ctx st t)
    positionSize := sharesOf ctx st t
    positionSizeUsd := actualSizeUsdOf ctx st t
    exitPrice := 0
    pnl := 0
    partialFill := ¬ FillResult.filled (fillOf ctx st t)
    marketImpact :=
      if ctx.cfg.marketImpactEnabled = true
      then FillResult.slippageBps (fillOf ctx st t) * 0.3 else 0 }

/-- One iteration of the trade loop of `runSingleSimulation`
(simulator.ts lines 139-234). -/
def processTrade (ctx : SimulationContext) (st : TrialState) (t : Trade) : TrialState :=
  if tradeUsdOf t < ctx.cfg.minTradeUsd then st
  else
    let seed2 := lcg (lcg st.seed)
    if clippedSizeOf ctx st t < 1 then { st with seed := seed2 }
    else
      let fill := fillOf ctx st t
      let actualSizeUsd := actualSizeUsdOf ctx st t
      let shares := sharesOf ctx st t
      let key := posKeyOf t
      let log2 :=
        if st.tradeLog.length < 50
        then st.tradeLog ++ [logEntryOf ctx st t] else st.tradeLog
      if t.side = Side.BUY then
        let positions2 :=
          match mapGet st.positions key with
          | some existing =>
            let newSize := existing.size + shares
            mapSet st.positions key
              { existing with
                avgPrice :=
                  (existing.avgPrice * existing.size + FillResult.avgPrice fill * shares) / newSize
                size := newSize }
          | none =>
            mapSet st.positions key
              { size := shares
                avgPrice := FillResult.avgPrice fill
                outcome := t.outcome
                conditionId := t.conditionId }
        { st with
          cash := st.cash - actualSizeUsd
          positions := positions2
          marketExposure :=
            mapSet st.marketExposure t.conditionId (currentExposureOf st t + actualSizeUsd)
          tradeLog := log2
          seed := seed2 }
      else
        match mapGet st.positions key with
        | some existing =>
          if existing.size > 0 then
            let sellShares := min shares existing.size
            let pnl := (FillResult.avgPrice fill - existing.avgPrice) * sellShares
            let dk := dateKeyOf t.timestamp
            { st with
              cash := st.cash + sellShares * FillResult.avgPrice fill
              positions := mapSet st.positions key { existing with size := existing.size - sellShares }
              dailyPnl := mapSet st.dailyPnl dk (orElseNum (mapGet st.dailyPnl dk) 0 + pnl)
              marketPnl :=
                mapSet st.marketPnl t.conditionId
                  (orElseNum (mapGet st.marketPnl t.conditionId) 0 + pnl)
              tradeLog := log2
              seed := seed2 }
          else { st with tradeLog := log2, seed := seed2 }
        | none => { st with tradeLog := log2, seed := seed2 }

/-- Exit price for a residual position at end of trial
(simulator.ts lines 241-251). -/
def exitPriceOf (cache : List (String × MarketCache)) (pos : Position) : ℝ :=
  match mapGet cache pos.conditionId with
  | some m =>
    match m.winningOutcome with
    | some w =>
      if m.isClosed = true ∧ w ≠ "" then
        if w.toUpper = pos.outcome.toUpper then 1 else 0
      else
        let e := orElseVal m.lastPriceYes 0.5
        if pos.outcome.toUpper = "NO" then 1 - e else e
    | none =>
      let e := orElseVal m.lastPriceYes 0.5
      if pos.outcome.toUpper = "NO" then 1 - e else e
  | none =>
    let e := (0.5 : ℝ)
    if pos.outcome.toUpper = "NO" then 1 - e else e

/-- One step of the end-of-trial mark-to-market loop
(simulator.ts lines 237-256): accumulates unrealized PnL and the per-market
PnL map, skipping dust positions (`size <= 0.001`). -/
def mtmStep (cache : List (String × MarketCache))
    (acc : ℝ × List (String × ℝ)) (kv : String × Position) : ℝ × List (String × ℝ) :=
  let pos := kv.2
  if pos.size ≤ 0.001 then acc
  else
    let pnl := (exitPriceOf cache pos - pos.avgPrice) * pos.size
    (acc.1 + pnl, mapSet acc.2 pos.conditionId (orElseNum (mapGet acc.2 pos.conditionId) 0 + pnl))

/-- The per-trial result produced by `runSingleSimulation`. -/
structure TrialOut where
  finalPnl : ℝ
  dailyPnl : List (ℤ × ℝ)
  marketPnl : List (String × ℝ)
  tradeLog : List SimulatedTrade

/-- The fresh `PortfolioState`/maps created at the start of a trial. -/
def initTrialState (ctx : SimulationContext) (seed : ℤ) : TrialState :=
  { cash := ctx.initialCash
    positions := []
    tradeLog := []
    dailyPnl := []
    marketPnl := []
    marketExposure := []
    seed := seed }

/-- `runSingleSimulation` (simulator.ts lines 119-262): fold the trade loop,
mark residual positions to market, convert the total PnL to GBP.  Returns
the trial result together with the RNG seed left for the next trial. -/
def runSingleSimulation (trades : List Trade) (ctx : SimulationContext) (seed : ℤ) :
    TrialOut × ℤ :=
  let st := trades.foldl (processTrade ctx) (initTrialState ctx seed)
  let mtm := st.positions.foldl (mtmStep ctx.marketCache) (0, st.marketPnl)
  let totalPnlUsd := st.cash - ctx.initialCash + mtm.1
  ({ finalPnl := totalPnlUsd / ctx.gbpUsdRate
     dailyPnl := st.dailyPnl
     marketPnl := mtm.2
     tradeLog := st.tradeLog }, st.seed)

/-- `percentile` (simulator.ts line 457):
`arr[Math.floor(arr.length * p)] || 0` (out-of-range reads give `0`; for a
number `x`, `x || 0 = x`). -/
def percentile (arr : List ℝ) (p : ℝ) : ℝ :=
  let idx : ℤ := ⌊(arr.length : ℝ) * p⌋
  if idx < 0 then 0 else arr.getD idx.toNat 0

/-- `mean` (simulator.ts line 458). -/
def mean (arr : List ℝ) : ℝ := arr.sum / (arr.length : ℝ)

/-- `stdDev` (simulator.ts lines 459-462): square root of the summed squared
deviations divided by the count. -/
def stdDev (arr : List ℝ) : ℝ :=
  Real.sqrt ((arr.map (fun x => (x - mean arr) ^ 2)).sum / (arr.length : ℝ))

/-- The Sharpe-like ratio (simulator.ts line 467):
`returnStdDev > 0 ? avgReturn / returnStdDev : 0`. -/
def sharpeOf (arr : List ℝ) : ℝ :=
  if stdDev arr > 0 then mean arr / stdDev arr else 0

/-- The entry of `dataStore.getLeaderboard` that the simulation path reads
(the other columns only feed log narration). -/
structure LeaderboardEntry where
  walletAddress : String

/-- The external collaborators and ambient values consumed by
`runSimulation`: the ranked trader list, the in-window trade feed, the
market lookup, `config.GBP_USD_RATE`, and the `Date.now()` clock. -/
structure SimInputs where
  leaderboard : List LeaderboardEntry
  tradesSince : ℝ → List Trade
  getMarket : String → Option Market
  gbpUsdRate : ℝ
  now : ℝ

/-- The `results` block of `SimulationResults`; `sharpe` is the source field
named for the Sharpe ratio. -/
structure SimResultsCore where
  pnlP5 : ℝ
  pnlP25 : ℝ
  pnlMedian : ℝ
  pnlP75 : ℝ
  pnlP95 : ℝ
  pnlMean : ℝ
  sharpe : ℝ

/-- A row of `dailyBreakdown` (the date is the UTC day index). -/
structure DailyRow where
  date : ℤ
  pnlMedian : ℝ
  pnlP5 : ℝ
  pnlP95 : ℝ

/-- A row of `marketContributions`. -/
structure MarketContribution where
  market : String
  conditionId : String
  pnlContribution : ℝ
  tradeCount : ℝ

/-- The embedded `SimulationResults`: every numeric/structural output field
of the source record (the `uuidv4` id, the `config` echo, the prose
disclaimer and the narrative `simulationLog` are omitted, see the header). -/
structure SimulationResults where
  results : SimResultsCore
  dailyBreakdown : List DailyRow
  marketContributions : List MarketContribution
  tradersFollowed : List String
  windowStart : ℝ
  windowEnd : ℝ
  sampleTradeLog : List SimulatedTrade

/-- `windowStart = Date.now() - cfg.windowDays * 24 * 60 * 60 * 1000`. -/
def windowStartOf (inp : SimInputs) (cfg : SimulationConfig) : ℝ :=
  inp.now - cfg.windowDays * 24 * 60 * 60 * 1000

/-- Trades of the window filtered to followed wallets and sorted by
timestamp (simulator.ts lines 319-325; JS `sort` with the numeric
comparator is stable ascending, like `mergeSort`). -/
def relevantTradesOf (inp : SimInputs) (cfg : SimulationConfig) : List Trade :=
  let topTraders := inp.leaderboard.map LeaderboardEntry.walletAddress
  ((inp.tradesSince (windowStartOf inp cfg)).filter
      (fun t => topTraders.contains t.walletAddress)).mergeSort
    (fun a b => decide (a.timestamp ≤ b.timestamp))

/-- Pre-computed trader volumes for proportional sizing
(simulator.ts lines 345-349). -/
def traderVolumesOf (relevantTrades : List Trade) : List (String × ℝ) :=
  relevantTrades.foldl
    (fun m t => mapSet m t.walletAddress (orElseNum (mapGet m t.walletAddress) 0 + tradeUsdOf t))
    []

/-- `[...new Set(relevantTrades.map(t => t.conditionId))]`: distinct
condition ids in first-occurrence order. -/
def uniqueConditionIdsOf (relevantTrades : List Trade) : List String :=
  relevantTrades.foldl
    (fun acc t => if acc.contains t.conditionId then acc else acc ++ [t.conditionId]) []

/-- The pre-fetched market cache (simulator.ts lines 367-377): ids whose
`getMarket` lookup fails get no entry; falsy numeric fields get the
conservative defaults. -/
def marketCacheOf (inp : SimInputs) (ids : List String) : List (String × MarketCache) :=
  ids.foldl
    (fun cache id =>
      match inp.getMarket id with
      | some m =>
        mapSet cache id
          { dailyVolume := orElseNum m.dailyVolume 100000
            isClosed := m.isClosed
            winningOutcome := m.winningOutcome
            lastPriceYes := orElseNum m.lastPriceYes 0.5 }
      | none => cache) []

/-- The simulation context assembled before the trial loop
(simulator.ts lines 380-389). -/
def ctxOf (inp : SimInputs) (cfg : SimulationConfig) : SimulationContext :=
  let relevantTrades := relevantTradesOf inp cfg
  let topTraders := inp.leaderboard.map LeaderboardEntry.walletAddress
  let initialCash := cfg.bankrollGbp * inp.gbpUsdRate
  { cfg := cfg
    initialCash := initialCash
    allocationPerTrader := initialCash / (topTraders.length : ℝ)
    maxExposureUsd := initialCash * (cfg.maxExposurePct / 100)
    traderVolumes := traderVolumesOf relevantTrades
    marketCache := marketCacheOf inp (uniqueConditionIdsOf relevantTrades)
    tradesPerTrader := max 1 ((relevantTrades.length : ℝ) / (topTraders.length : ℝ))
    gbpUsdRate := inp.gbpUsdRate }

/-- The Monte Carlo loop (simulator.ts lines 418-439): `n` trials sharing
the single threaded LCG seed, first trial first. -/
def runTrials (trades : List Trade) (ctx : SimulationContext) :
    ℕ → ℤ → List TrialOut × ℤ
  | 0, s => ([], s)
  | n + 1, s =>
    let r := runSingleSimulation trades ctx s
    let rest := runTrials trades ctx n r.2
    (r.1 :: rest.1, rest.2)

/-- Push one per-trial PnL sample onto the cross-trial aggregation map. -/
def pushPnl {κ : Type} [DecidableEq κ] (m : List (κ × List ℝ)) (kv : κ × ℝ) :
    List (κ × List ℝ) :=
  match mapGet m kv.1 with
  | some l => mapSet m kv.1 (l ++ [kv.2])
  | none => mapSet m kv.1 [kv.2]

/-- `allDailyPnl` accumulated over the trial loop. -/
def allDailyPnlOf (trials : List TrialOut) : List (ℤ × List ℝ) :=
  trials.foldl (fun m tr => tr.dailyPnl.foldl pushPnl m) []

/-- `allMarketPnl` accumulated over the trial loop. -/
def allMarketPnlOf (trials : List TrialOut) : List (String × List ℝ) :=
  trials.foldl (fun m tr => tr.marketPnl.foldl pushPnl m) []

/-- The `market` display name of a contribution row:
`market?.title || conditionId.slice(0, 16) + '...'`. -/
def marketTitleOf (inp : SimInputs) (conditionId : String) : String :=
  orElseStr ((inp.getMarket conditionId).bind Market.title) (conditionId.take 16 ++ "...")

/-- The list of trial results of a run (simulator.ts lines 418-439). -/
def trialsOf (inp : SimInputs) (cfg : SimulationConfig) (seed : ℤ) : List TrialOut :=
  (runTrials (relevantTradesOf inp cfg) (ctxOf inp cfg) cfg.numSimulations seed).1

/-- The final PnLs of all trials, sorted ascending in place
(simulator.ts line 455). -/
def sortedPnlsOf (inp : SimInputs) (cfg : SimulationConfig) (seed : ℤ) : List ℝ :=
  ((trialsOf inp cfg seed).map TrialOut.finalPnl).mergeSort (fun a b => decide (a ≤ b))

/-- The success path of `runSimulation` (simulator.ts lines 268-617):
run the trials, sort the final PnLs in place, aggregate the statistics and
assemble the report. -/
def buildReport (inp : SimInputs) (cfg : SimulationConfig) (seed : ℤ) : SimulationResults :=
  let trials := trialsOf inp cfg seed
  let sorted := sortedPnlsOf inp cfg seed
  let sampleTradeLog :=
    match trials with
    | [] => []
    | tr :: _ => tr.tradeLog.take 20
  let dailyBreakdown :=
    ((allDailyPnlOf trials).map (fun kv =>
        let s := kv.2.mergeSort (fun a b => decide (a ≤ b))
        { date := kv.1
          pnlMedian := percentile s 0.5
          pnlP5 := percentile s 0.05
          pnlP95 := percentile s 0.95 : DailyRow })).mergeSort
      (fun a b => decide (a.date ≤ b.date))
  let contributions :=
    (((allMarketPnlOf trials).map (fun kv =>
          { market := ""
            conditionId := kv.1
            pnlContribution := mean kv.2
            tradeCount := (kv.2.length : ℝ) / (cfg.numSimulations : ℝ) :
            MarketContribution })).mergeSort
        (fun a b => decide (b.pnlContribution ≤ a.pnlContribution))).take 10
  { results :=
      { pnlP5 := percentile sorted 0.05
        pnlP25 := percentile sorted 0.25
        pnlMedian := percentile sorted 0.5
        pnlP75 := percentile sorted 0.75
        pnlP95 := percentile sorted 0.95
        pnlMean := mean sorted
        sharpe := sharpeOf sorted }
    dailyBreakdown := dailyBreakdown
    marketContributions :=
      contributions.map (fun mc => { mc with market := marketTitleOf inp mc.conditionId })
    tradersFollowed := inp.leaderboard.map LeaderboardEntry.walletAddress
    windowStart := windowStartOf inp cfg
    windowEnd := inp.now
    sampleTradeLog := sampleTradeLog }

/-- `runSimulation` (simulator.ts lines 268-617): throws
`'No traders in leaderboard'` when the followed-wallet list is empty,
otherwise produces the report. -/
def runSimulation (inp : SimInputs) (cfg : SimulationConfig) (seed : ℤ) :
    Except String SimulationResults :=
  if (inp.leaderboard.map LeaderboardEntry.walletAddress).length = 0 then
    Except.error "No traders in leaderboard"
  else Except.ok (buildReport inp cfg seed)

/-- The trial result produced by a trial that processes no trades. -/
def zeroTrial : TrialOut :=
  { finalPnl := 0
    dailyPnl := []
    marketPnl := []
    tradeLog := [] }

/-! ### Concrete instances used by witnesses and counterexamples -/

/-- A liquid two-tier orderbook with a 1 bps quoted spread. -/
def obCE : OrderbookSnapshot :=
  { tokenId := "t"
    timestamp := 0
    bestBid := 0.49
    bestAsk := 0.51
    midPrice := 0.5
    spreadBps := 1
    bidDepth100bps := 100
    askDepth100bps := 100
    bidDepth500bps := 200
    askDepth500bps := 200 }

/-- A small two-trial configuration. -/
def cfg0 : SimulationConfig :=
  { bankrollGbp := 100
    entryDelaySec := 0
    delayVarianceSec := 0
    sizingRule := SizingRule.equal
    maxExposurePct := 100
    minTradeUsd := 0
    useActualOrderbook := false
    marketImpactEnabled := false
    numSimulations := 2
    windowDays := 7 }

/-- Inputs with one followed wallet and an empty trade feed. -/
def inp0 : SimInputs :=
  { leaderboard := [{ walletAddress := "w" }]
    tradesSince := fun _ => []
    getMarket := fun _ => none
    gbpUsdRate := 1
    now := 0 }

/-- A context with an empty market cache and a 100 USD bankroll. -/
def ctx0 : SimulationContext :=
  { cfg := cfg0
    initialCash := 100
    allocationPerTrader := 100
    maxExposureUsd := 100
    traderVolumes := []
    marketCache := []
    tradesPerTrader := 1
    gbpUsdRate := 1 }

/-- A held YES position of 2 shares at average price 0.5 on market `A`. -/
def pos0 : Position :=
  { size := 2
    avgPrice := 0.5
    outcome := "YES"
    conditionId := "A" }

/-- A trial state holding `pos0`. -/
def st0 : TrialState :=
  { cash := 100
    positions := [("A_YES", pos0)]
    tradeLog := []
    dailyPnl := []
    marketPnl := []
    marketExposure := []
    seed := 1 }

/-- A 100 USD SELL of the `A`/YES instrument. -/
def sellTrade0 : Trade :=
  { walletAddress := "w"
    conditionId := "A"
    tokenId := "tok"
    side := Side.SELL
    outcome := "YES"
    size := 10
    price := 0.5
    usdcSize := some 100
    timestamp := 0 }

/-- A 100 USD SELL on market `B`, for which `st0` holds no position. -/
def sellTradeB : Trade :=
  { walletAddress := "w"
    conditionId := "B"
    tokenId := "tok"
    side := Side.SELL
    outcome := "YES"
    size := 10
    price := 0.5
    usdcSize := some 100
    timestamp := 0 }

/-- A 100 USD BUY of the YES outcome on the given market. -/
def buyTrade (cid : String) : Trade :=
  { walletAddress := "w"
    conditionId := cid
    tokenId := "tok"
    side := Side.BUY
    outcome := "YES"
    size := 1
    price := 0.5
    usdcSize := some 100
    timestamp := 0 }

/-- A one-trial configuration with a 10 GBP bankroll, full per-market
exposure allowance and no minimum trade size. -/
def cfgNeg : SimulationConfig :=
  { bankrollGbp := 10
    entryDelaySec := 0
    delayVarianceSec := 0
    sizingRule := SizingRule.equal
    maxExposurePct := 100
    minTradeUsd := 0
    useActualOrderbook := false
    marketImpactEnabled := false
    numSimulations := 1
    windowDays := 7 }

/-- Inputs whose window holds three followed BUY trades on three markets. -/
def inpNeg : SimInputs :=
  { leaderboard := [{ walletAddress := "w" }]
    tradesSince := fun _ => [buyTrade "A", buyTrade "B", buyTrade "C"]
    getMarket := fun _ => none
    gbpUsdRate := 1
    now := 0 }

/-- The context the orchestrator builds from `inpNeg` and `cfgNeg`. -/
def ctxNeg : SimulationContext :=
  { cfg := cfgNeg
    initialCash := 10
    allocationPerTrader := 10
    maxExposureUsd := 10
    traderVolumes := [("w", 300)]
    marketCache := []
    tradesPerTrader := 3
    gbpUsdRate := 1 }

/-- Inputs with an empty followed-wallet list. -/
def inpEmpty : SimInputs :=
  { leaderboard := []
    tradesSince := fun _ => []
    getMarket := fun _ => none
    gbpUsdRate := 1
    now := 0 }

/-! ### Association-list (JS `Map`) lemmas -/

theorem mapGet_mapSet_self {κ α : Type} [DecidableEq κ] (m : List (κ × α)) (k : κ) (v : α) :
    mapGet (mapSet m k v) k = some v := by
  induction m with
  | nil => simp [mapGet, mapSet]
  | cons kv rest ih =>
    obtain ⟨k0, v0⟩ := kv
    by_cases h : k0 = k
    · simp [mapSet, mapGet, h]
    · simp [mapSet, mapGet, h, ih]

theorem mem_of_mapGet {κ α : Type} [DecidableEq κ] {m : List (κ × α)} {k : κ} {v : α}
    (h : mapGet m k = some v) : (k, v) ∈ m := by
  induction m with
  | nil => simp [mapGet] at h
  | cons kv rest ih =>
    obtain ⟨k0, v0⟩ := kv
    by_cases hk : k0 = k
    · subst hk
      simp [mapGet] at h
      simp [h]
    · simp [mapGet, hk] at h
      exact List.mem_cons_of_mem _ (ih h)

theorem mem_mapSet_elim {κ α : Type} [DecidableEq κ] {m : List (κ × α)} {k : κ} {v : α}
    {kv : κ × α} (h : kv ∈ mapSet m k v) : kv ∈ m ∨ kv.2 = v := by
  induction m with
  | nil =>
    simp [mapSet] at h
    simp [h]
  | cons kv0 rest ih =>
    obtain ⟨k0, v0⟩ := kv0
    by_cases hk : k0 = k
    · simp [mapSet, hk] at h
      rcases h with h | h
      · right; simp [h]
      · left; exact List.mem_cons_of_mem _ h
    · simp [mapSet, hk] at h
      rcases h with h | h
      · left; simp [h]
      · rcases ih h with h1 | h1
        · left; exact List.mem_cons_of_mem _ h1
        · right; exact h1

/-! ### Fill-model facts -/

theorem avgPrice_pos (side : Side) (sizeUsd : ℝ) (ob : Option OrderbookSnapshot)
    (b : Bool) (dv p : ℝ) :
    0 < FillResult.avgPrice (calculateRealisticFill side sizeUsd ob b dv p) := by
  cases ob with
  | none =>
    simp only [calculateRealisticFill]
    exact lt_of_lt_of_le (by norm_num) (le_max_left _ _)
  | some o =>
    simp only [calculateRealisticFill]
    exact lt_of_lt_of_le (by norm_num) (le_max_left _ _)

theorem fillOf_fillFraction (ctx : SimulationContext) (st : TrialState) (t : Trade) :
    FillResult.fillFraction (fillOf ctx st t) = 1 := rfl

theorem positionSizeUsdOf_nonneg (ctx : SimulationContext) (t : Trade) :
    0 ≤ positionSizeUsdOf ctx t := by
  unfold positionSizeUsdOf
  cases ctx.cfg.sizingRule
  · exact le_trans (by norm_num) (le_max_left _ _)
  · exact le_trans (by norm_num) (le_max_left _ _)

theorem clippedSizeOf_nonneg (ctx : SimulationContext) (st : TrialState) (t : Trade) :
    0 ≤ clippedSizeOf ctx st t := by
  simp only [clippedSizeOf]
  split
  · exact le_max_left _ _
  · exact positionSizeUsdOf_nonneg ctx t

theorem sharesOf_nonneg (ctx : SimulationContext) (st : TrialState) (t : Trade) :
    0 ≤ sharesOf ctx st t := by
  unfold sharesOf actualSizeUsdOf
  exact div_nonneg
    (mul_nonneg (clippedSizeOf_nonneg ctx st t) (by rw [fillOf_fillFraction]; norm_num))
    (avgPrice_pos _ _ _ _ _ _).le

/-! ### C4: fill model versus the liquidity tiers -/

/-- C4 (amended): with market impact disabled, a notional at or below the
near-touch depth pays the rounded half spread (at most halfSpread + 1/2,
the rounding slack); a notional beyond both depth tiers gets a fill ratio
strictly below 1 and exactly 500 bps of slippage. -/
theorem calculateRealisticFill_liquidity_tiers (side : Side) (sizeUsd : ℝ)
    (ob : OrderbookSnapshot) (dv p : ℝ) :
    (sizeUsd ≤ relevantDepthOf side ob →
      FillResult.slippageBps (calculateRealisticFill side sizeUsd (some ob) false dv p) ≤
        OrderbookSnapshot.spreadBps ob / 2 + 1 / 2) ∧
    (relevantDepthOf side ob < sizeUsd → deeperDepthOf side ob < sizeUsd → 0 < sizeUsd →
      FillResult.fillFraction (calculateRealisticFill side sizeUsd (some ob) false dv p) < 1 ∧
      FillResult.slippageBps (calculateRealisticFill side sizeUsd (some ob) false dv p) = 500) := by
  constructor
  · intro h
    have h1 : ¬ sizeUsd > relevantDepthOf side ob := not_lt.mpr h
    simp only [calculateRealisticFill, liquiditySlippageOf, if_neg h1, Bool.false_eq_true,
      false_and, if_false, jsRound]
    exact Int.floor_le _
  · intro h1 h2 h3
    have hround : jsRound (500 : ℝ) = 500 := by
      rw [jsRound, Int.floor_eq_iff]
      norm_num
    constructor
    · simp only [calculateRealisticFill, fillFractionOf, if_pos (And.intro h1 h2)]
      exact lt_of_le_of_lt (min_le_right _ _) ((div_lt_one h3).mpr h2)
    · simp only [calculateRealisticFill, liquiditySlippageOf, if_pos h1, if_pos h2,
        Bool.false_eq_true, false_and, if_false, hround]
      norm_num

/-- C4 counterexample: on a book quoting a 1 bps spread, a 10 USD BUY
(below the 100 USD near-touch depth, market impact off) is charged
`Math.round(0.5) = 1` bps, which exceeds half the quoted spread. -/
theorem halfSpread_claim_cex :
    (10 : ℝ) ≤ relevantDepthOf Side.BUY obCE ∧
    FillResult.slippageBps (calculateRealisticFill Side.BUY 10 (some obCE) false 100000 0.5) = 1 ∧
    ¬ FillResult.slippageBps (calculateRealisticFill Side.BUY 10 (some obCE) false 100000 0.5) ≤
        OrderbookSnapshot.spreadBps obCE / 2 := by
  have hd : relevantDepthOf Side.BUY obCE = 100 := by simp [relevantDepthOf, obCE]
  have h1 : ¬ (10 : ℝ) > relevantDepthOf Side.BUY obCE := by rw [hd]; norm_num
  have heval :
      FillResult.slippageBps (calculateRealisticFill Side.BUY 10 (some obCE) false 100000 0.5)
        = 1 := by
    simp only [calculateRealisticFill, liquiditySlippageOf, if_neg h1, Bool.false_eq_true,
      false_and, if_false, jsRound]
    rw [show OrderbookSnapshot.spreadBps obCE / 2 + 1 / 2 = 1 by simp [obCE]; norm_num]
    norm_num
  refine ⟨by rw [hd]; norm_num, heval, ?_⟩
  rw [heval, show OrderbookSnapshot.spreadBps obCE = 1 from by simp [obCE]]
  norm_num

/-- Witness for `calculateRealisticFill_liquidity_tiers` at a 10 USD order
(below depth) and a 300 USD order (beyond both tiers) on `obCE`. -/
theorem calculateRealisticFill_liquidity_tiers_witness :
    ((10 : ℝ) ≤ relevantDepthOf Side.BUY obCE ∧
      FillResult.slippageBps (calculateRealisticFill Side.BUY 10 (some obCE) false 100000 0.5) ≤
        OrderbookSnapshot.spreadBps obCE / 2 + 1 / 2) ∧
    (relevantDepthOf Side.BUY obCE < 300 ∧ deeperDepthOf Side.BUY obCE < 300 ∧
      FillResult.fillFraction (calculateRealisticFill Side.BUY 300 (some obCE) false 100000 0.5) < 1 ∧
      FillResult.slippageBps (calculateRealisticFill Side.BUY 300 (some obCE) false 100000 0.5) = 500) := by
  have h10 : (10 : ℝ) ≤ relevantDepthOf Side.BUY obCE := by
    simp [relevantDepthOf, obCE]; norm_num
  have hrd : relevantDepthOf Side.BUY obCE < 300 := by
    simp [relevantDepthOf, obCE]; norm_num
  have hdd : deeperDepthOf Side.BUY obCE < 300 := by
    simp [deeperDepthOf, obCE]; norm_num
  have hb := (calculateRealisticFill_liquidity_tiers Side.BUY 300 obCE 100000 0.5).2
    hrd hdd (by norm_num)
  exact ⟨⟨h10, (calculateRealisticFill_liquidity_tiers Side.BUY 10 obCE 100000 0.5).1 h10⟩,
    hrd, hdd, hb.1, hb.2⟩

/-! ### C5: the square-root market-impact term -/

/-- C5 (amended): the square-root market-impact term is applied only on
the with-orderbook path; the no-orderbook path of the fill model ignores
both the market-impact flag and the daily volume. -/
theorem marketImpact_orderbook_only :
    (∀ (side : Side) (sizeUsd : ℝ) (b b' : Bool) (dv dv' p : ℝ),
      calculateRealisticFill side sizeUsd none b dv p =
        calculateRealisticFill side sizeUsd none b' dv' p) ∧
    (∀ (side : Side) (sizeUsd : ℝ) (ob : OrderbookSnapshot) (dv p : ℝ), 0 < dv →
      FillResult.slippageBps (calculateRealisticFill side sizeUsd (some ob) true dv p) =
        ((jsRound (liquiditySlippageOf side sizeUsd ob + Real.sqrt (sizeUsd / dv) * 100) : ℤ) : ℝ)) := by
  constructor
  · intro side s b b' dv dv' p
    rfl
  · intro side s ob dv p h
    simp only [calculateRealisticFill]
    rw [if_pos (show True ∧ dv > 0 from ⟨trivial, h⟩)]

/-- C5 counterexample: a 100 USD BUY with no orderbook context, market
impact enabled and a 10000 USD daily volume returns 10 bps — the
liquidity-only estimate — not 10 + sqrt(100/10000)·100 = 20 bps; the
enabled and disabled runs coincide exactly. -/
theorem sqrt_impact_claim_cex :
    FillResult.slippageBps (calculateRealisticFill Side.BUY 100 none true 10000 0.5) = 10 ∧
    calculateRealisticFill Side.BUY 100 none true 10000 0.5 =
      calculateRealisticFill Side.BUY 100 none false 10000 0.5 ∧
    Real.sqrt ((100 : ℝ) / 10000) * 100 = 10 ∧
    FillResult.slippageBps (calculateRealisticFill Side.BUY 100 none true 10000 0.5) ≠
      10 + Real.sqrt ((100 : ℝ) / 10000) * 100 := by
  have hsq : Real.sqrt ((100 : ℝ) / 10000) = 1 / 10 := by
    rw [show (100 : ℝ) / 10000 = (1 / 10) ^ 2 by norm_num, Real.sqrt_sq (by norm_num)]
  have h1 : FillResult.slippageBps (calculateRealisticFill Side.BUY 100 none true 10000 0.5) = 10 := by
    simp only [calculateRealisticFill]
    rw [show (100 : ℝ) / 100 = 1 by norm_num, Real.sqrt_one]
    norm_num
  exact ⟨h1, rfl, by rw [hsq]; norm_num, by rw [h1, hsq]; norm_num⟩

/-- Witness for `marketImpact_orderbook_only`: the flag is irrelevant for a
5 USD no-orderbook fill, and the with-orderbook slippage at a positive
10000 USD daily volume is the rounded liquidity-plus-impact sum. -/
theorem marketImpact_orderbook_only_witness :
    calculateRealisticFill Side.BUY 5 none true 100000 0.5 =
      calculateRealisticFill Side.BUY 5 none false 100000 0.5 ∧
    ((0 : ℝ) < 10000 ∧
      FillResult.slippageBps (calculateRealisticFill Side.BUY 100 (some obCE) true 10000 0.5) =
        ((jsRound (liquiditySlippageOf Side.BUY 100 obCE + Real.sqrt ((100 : ℝ) / 10000) * 100) : ℤ) : ℝ)) :=
  ⟨marketImpact_orderbook_only.1 Side.BUY 5 true false 100000 100000 0.5,
    by norm_num, marketImpact_orderbook_only.2 Side.BUY 100 obCE 10000 0.5 (by norm_num)⟩

/-! ### C8: population standard deviation and Sharpe-like ratio -/

/-- C8: `stdDev` is the population standard deviation (its square times the
count gives back the summed squared deviations from `mean`), and the
Sharpe-like ratio is `mean / stdDev`, with `0` when the deviation is `0`. -/
theorem stdDev_population_sharpe (l : List ℝ) (h : l ≠ []) :
    stdDev l ^ 2 * (l.length : ℝ) = (l.map (fun x => (x - mean l) ^ 2)).sum ∧
    sharpeOf l = if stdDev l = 0 then 0 else mean l / stdDev l := by
  have hn : (0 : ℝ) < (l.length : ℝ) := by
    exact_mod_cast List.length_pos.mpr h
  have hsum : 0 ≤ (l.map (fun x => (x - mean l) ^ 2)).sum := by
    refine List.sum_nonneg ?_
    intro y hy
    obtain ⟨x, _, rfl⟩ := List.mem_map.mp hy
    positivity
  have hs0 : 0 ≤ stdDev l := by
    rw [stdDev]; exact Real.sqrt_nonneg _
  constructor
  · rw [stdDev, Real.sq_sqrt (div_nonneg hsum hn.le), div_mul_cancel₀ _ hn.ne']
  · rcases hs0.lt_or_eq with hlt | heq
    · rw [sharpeOf, if_pos hlt, if_neg hlt.ne']
    · rw [sharpeOf, if_neg (by rw [← heq]; exact lt_irrefl 0), if_pos heq.symm]

/-- Witness for `stdDev_population_sharpe` on the sample `[1, 3]`. -/
theorem stdDev_population_sharpe_witness :
    ([1, 3] : List ℝ) ≠ [] ∧
    stdDev [1, 3] ^ 2 * (([1, 3] : List ℝ).length : ℝ) =
      (([1, 3] : List ℝ).map (fun x => (x - mean [1, 3]) ^ 2)).sum ∧
    sharpeOf [1, 3] = if stdDev [1, 3] = 0 then 0 else mean [1, 3] / stdDev [1, 3] :=
  ⟨by simp, (stdDev_population_sharpe [1, 3] (by simp)).1,
    (stdDev_population_sharpe [1, 3] (by simp)).2⟩

/-! ### C6: sells are clipped, no short positions -/

/-- C6: every step of the portfolio accountant preserves non-negativity of
all position sizes, and a SELL that reaches the accountant with a held
position of positive size reduces it by exactly
`min(requested shares, held size)`. -/
theorem no_short_positions (ctx : SimulationContext) (st : TrialState) (t : Trade) :
    ((∀ kv ∈ st.positions, 0 ≤ Position.size kv.2) →
      ∀ kv ∈ TrialState.positions (processTrade ctx st t), 0 ≤ Position.size kv.2) ∧
    (∀ pos : Position, t.side = Side.SELL →
      ¬ tradeUsdOf t < SimulationConfig.minTradeUsd ctx.cfg →
      ¬ clippedSizeOf ctx st t < 1 →
      mapGet st.positions (posKeyOf t) = some pos → 0 < Position.size pos →
      mapGet (TrialState.positions (processTrade ctx st t)) (posKeyOf t) =
        some { pos with
                size := Position.size pos - min (sharesOf ctx st t) (Position.size pos) }) := by
  constructor
  · intro hinv kv hkv
    by_cases h1 : tradeUsdOf t < SimulationConfig.minTradeUsd ctx.cfg
    · rw [processTrade, if_pos h1] at hkv
      exact hinv kv hkv
    · by_cases h2 : clippedSizeOf ctx st t < 1
      · simp only [processTrade, if_neg h1, if_pos h2] at hkv
        exact hinv kv hkv
      · by_cases h3 : t.side = Side.BUY
        · simp only [processTrade, if_neg h1, if_neg h2, if_pos h3] at hkv
          cases hget : mapGet st.positions (posKeyOf t) with
          | some existing =>
            rw [hget] at hkv
            rcases mem_mapSet_elim hkv with hmem | hval
            · exact hinv kv hmem
            · rw [hval]
              exact add_nonneg (hinv _ (mem_of_mapGet hget)) (sharesOf_nonneg ctx st t)
          | none =>
            rw [hget] at hkv
            rcases mem_mapSet_elim hkv with hmem | hval
            · exact hinv kv hmem
            · rw [hval]
              exact sharesOf_nonneg ctx st t
        · simp only [processTrade, if_neg h1, if_neg h2, if_neg h3] at hkv
          cases hget : mapGet st.positions (posKeyOf t) with
          | some existing =>
            rw [hget] at hkv
            by_cases h4 : Position.size existing > 0
            · simp only [if_pos h4] at hkv
              rcases mem_mapSet_elim hkv with hmem | hval
              · exact hinv kv hmem
              · rw [hval]
                exact sub_nonneg.mpr (min_le_right _ _)
            · simp only [if_neg h4] at hkv
              exact hinv kv hkv
          | none =>
            rw [hget] at hkv
            exact hinv kv hkv
  · intro pos hside h1 h2 hget hpos
    have h3 : ¬ t.side = Side.BUY := by simp [hside]
    simp only [processTrade, if_neg h1, if_neg h2, if_neg h3, hget, if_pos hpos]
    exact mapGet_mapSet_self _ _ _

/-- Witness for `no_short_positions`: selling 100 USD of the `A`/YES
instrument against a held 2-share position. -/
theorem no_short_positions_witness :
    ((∀ kv ∈ st0.positions, 0 ≤ Position.size kv.2) ∧
      ∀ kv ∈ TrialState.positions (processTrade ctx0 st0 sellTrade0), 0 ≤ Position.size kv.2) ∧
    (Trade.side sellTrade0 = Side.SELL ∧
      ¬ tradeUsdOf sellTrade0 < SimulationConfig.minTradeUsd ctx0.cfg ∧
      ¬ clippedSizeOf ctx0 st0 sellTrade0 < 1 ∧
      mapGet st0.positions (posKeyOf sellTrade0) = some pos0 ∧
      0 < Position.size pos0 ∧
      mapGet (TrialState.positions (processTrade ctx0 st0 sellTrade0)) (posKeyOf sellTrade0) =
        some { pos0 with
                size := Position.size pos0 -
                  min (sharesOf ctx0 st0 sellTrade0) (Position.size pos0) }) := by
  have hinv : ∀ kv ∈ st0.positions, 0 ≤ Position.size kv.2 := by
    intro kv hkv
    simp only [st0, List.mem_singleton] at hkv
    rw [hkv]
    norm_num [pos0]
  have hmin : ¬ tradeUsdOf sellTrade0 < SimulationConfig.minTradeUsd ctx0.cfg := by
    norm_num [tradeUsdOf, orElseNum, sellTrade0, ctx0, cfg0]
  have hclip : ¬ clippedSizeOf ctx0 st0 sellTrade0 < 1 := by
    norm_num [clippedSizeOf, positionSizeUsdOf, currentExposureOf, mapGet, orElseNum,
      ctx0, cfg0, st0, sellTrade0]
  have hkey : posKeyOf sellTrade0 = "A_YES" := by decide
  have hget : mapGet st0.positions (posKeyOf sellTrade0) = some pos0 := by
    rw [hkey]
    simp [st0, mapGet]
  have hpos : (0 : ℝ) < Position.size pos0 := by norm_num [pos0]
  exact ⟨⟨hinv, (no_short_positions ctx0 st0 sellTrade0).1 hinv⟩,
    rfl, hmin, hclip, hget, hpos,
    (no_short_positions ctx0 st0 sellTrade0).2 pos0 rfl hmin hclip hget hpos⟩

/-! ### C9: a SELL without a held position only logs -/

/-- C9: a SELL trade for which no position (or only a non-positive-size
position) is held under the trade's `(conditionId, outcome)` key leaves
cash, the position map, the exposure map and both PnL maps unchanged; at
most the bounded audit log gains one entry. -/
theorem sell_without_position_frame (ctx : SimulationContext) (st : TrialState) (t : Trade)
    (hside : t.side = Side.SELL)
    (hpos : ∀ pos : Position,
      mapGet st.positions (posKeyOf t) = some pos → Position.size pos ≤ 0) :
    TrialState.cash (processTrade ctx st t) = st.cash ∧
    TrialState.positions (processTrade ctx st t) = st.positions ∧
    TrialState.marketExposure (processTrade ctx st t) = st.marketExposure ∧
    TrialState.dailyPnl (processTrade ctx st t) = st.dailyPnl ∧
    TrialState.marketPnl (processTrade ctx st t) = st.marketPnl ∧
    (TrialState.tradeLog (processTrade ctx st t) = st.tradeLog ∨
      ∃ e, TrialState.tradeLog (processTrade ctx st t) = st.tradeLog ++ [e]) := by
  have h3 : ¬ t.side = Side.BUY := by simp [hside]
  by_cases h1 : tradeUsdOf t < SimulationConfig.minTradeUsd ctx.cfg
  · rw [processTrade, if_pos h1]
    exact ⟨rfl, rfl, rfl, rfl, rfl, Or.inl rfl⟩
  · by_cases h2 : clippedSizeOf ctx st t < 1
    · simp only [processTrade, if_neg h1, if_pos h2]
      refine ⟨?_, ?_, ?_, ?_, ?_, Or.inl ?_⟩ <;> trivial
    · cases hget : mapGet st.positions (posKeyOf t) with
      | none =>
        simp only [processTrade, if_neg h1, if_neg h2, if_neg h3, hget]
        refine ⟨?_, ?_, ?_, ?_, ?_, ?_⟩
        · trivial
        · trivial
        · trivial
        · trivial
        · trivial
        · by_cases h5 : st.tradeLog.length < 50
          · exact Or.inr ⟨_, by rw [if_pos h5]⟩
          · exact Or.inl (by rw [if_neg h5])
      | some existing =>
        have h4 : ¬ Position.size existing > 0 := not_lt.mpr (hpos existing hget)
        simp only [processTrade, if_neg h1, if_neg h2, if_neg h3, hget, if_neg h4]
        refine ⟨?_, ?_, ?_, ?_, ?_, ?_⟩
        · trivial
        · trivial
        · trivial
        · trivial
        · trivial
        · by_cases h5 : st.tradeLog.length < 50
          · exact Or.inr ⟨_, by rw [if_pos h5]⟩
          · exact Or.inl (by rw [if_neg h5])

/-- Witness for `sell_without_position_frame`: a SELL on market `B`, for
which `st0` holds nothing. -/
theorem sell_without_position_frame_witness :
    Trade.side sellTradeB = Side.SELL ∧
    TrialState.cash (processTrade ctx0 st0 sellTradeB) = TrialState.cash st0 ∧
    TrialState.positions (processTrade ctx0 st0 sellTradeB) = TrialState.positions st0 ∧
    TrialState.marketPnl (processTrade ctx0 st0 sellTradeB) = TrialState.marketPnl st0 ∧
    (TrialState.tradeLog (processTrade ctx0 st0 sellTradeB) = TrialState.tradeLog st0 ∨
      ∃ e, TrialState.tradeLog (processTrade ctx0 st0 sellTradeB) =
        TrialState.tradeLog st0 ++ [e]) := by
  have hkey : posKeyOf sellTradeB = "B_YES" := by decide
  have hpos : ∀ pos : Position,
      mapGet st0.positions (posKeyOf sellTradeB) = some pos → Position.size pos ≤ 0 := by
    intro pos hp
    rw [hkey] at hp
    simp [st0, mapGet] at hp
  have h := sell_without_position_frame ctx0 st0 sellTradeB rfl hpos
  exact ⟨rfl, h.1, h.2.1, h.2.2.2.2.1, h.2.2.2.2.2⟩

/-! ### C7: conservative defaults for missing market metadata -/

/-- C7: a trade whose market is absent from the pre-fetched cache is still
processed — the fill model receives the assumed 100000 daily volume — and a
residual position on an uncached market is marked at the assumed 0.5 mid
price. -/
theorem missing_metadata_defaults :
    (∀ (ctx : SimulationContext) (st : TrialState) (t : Trade),
      mapGet ctx.marketCache t.conditionId = none →
      dailyVolumeOf ctx t = 100000 ∧
      fillOf ctx st t =
        calculateRealisticFill t.side (clippedSizeOf ctx st t) none
          (SimulationConfig.marketImpactEnabled ctx.cfg) 100000
          (priceAtEntryOf t (TrialState.seed st))) ∧
    (∀ (cache : List (String × MarketCache)) (pos : Position),
      mapGet cache pos.conditionId = none → exitPriceOf cache pos = 0.5) := by
  constructor
  · intro ctx st t h
    have hdv : dailyVolumeOf ctx t = 100000 := by
      simp [dailyVolumeOf, h, orElseNum]
    exact ⟨hdv, by rw [fillOf, hdv]⟩
  · intro cache pos h
    simp only [exitPriceOf, h]
    split
    · norm_num
    · norm_num

/-- Witness for `missing_metadata_defaults`: `ctx0` has an empty market
cache, so the SELL on market `A` uses the assumed volume, and `pos0` is
marked at 0.5. -/
theorem missing_metadata_defaults_witness :
    (mapGet (SimulationContext.marketCache ctx0) (Trade.conditionId sellTrade0) = none ∧
      dailyVolumeOf ctx0 sellTrade0 = 100000 ∧
      fillOf ctx0 st0 sellTrade0 =
        calculateRealisticFill (Trade.side sellTrade0) (clippedSizeOf ctx0 st0 sellTrade0) none
          (SimulationConfig.marketImpactEnabled ctx0.cfg) 100000
          (priceAtEntryOf sellTrade0 (TrialState.seed st0))) ∧
    (mapGet ([] : List (String × MarketCache)) (Position.conditionId pos0) = none ∧
      exitPriceOf [] pos0 = 0.5) := by
  have h1 : mapGet (SimulationContext.marketCache ctx0) (Trade.conditionId sellTrade0) = none := by
    simp [ctx0, mapGet]
  have h2 : mapGet ([] : List (String × MarketCache)) (Position.conditionId pos0) = none := by
    simp [mapGet]
  have ha := missing_metadata_defaults.1 ctx0 st0 sellTrade0 h1
  exact ⟨⟨h1, ha.1, ha.2⟩, h2, missing_metadata_defaults.2 [] pos0 h2⟩

/-! ### Percentile machinery for C3 -/

theorem sorted_mergeSort_real (l : List ℝ) :
    List.Sorted (· ≤ ·) (l.mergeSort (fun a b => decide (a ≤ b))) := by
  have h := @List.sorted_mergeSort ℝ (fun a b : ℝ => decide (a ≤ b))
    (fun a b c hab hbc => by
      simp only [decide_eq_true_eq] at *
      exact le_trans hab hbc)
    (fun a b => by simpa using le_total a b)
    l
  exact List.Pairwise.imp (fun hab => by simpa using hab) h

theorem percentile_mono (l : List ℝ) (hs : List.Sorted (· ≤ ·) l) (hl : 1 ≤ l.length)
    (p q : ℝ) (hp : 0 ≤ p) (hpq : p ≤ q) (hq : q < 1) :
    percentile l p ≤ percentile l q := by
  have hn : (0 : ℝ) < (l.length : ℝ) := by exact_mod_cast hl
  have hip : (0 : ℤ) ≤ ⌊(l.length : ℝ) * p⌋ :=
    Int.floor_nonneg.mpr (mul_nonneg hn.le hp)
  have hij : ⌊(l.length : ℝ) * p⌋ ≤ ⌊(l.length : ℝ) * q⌋ :=
    Int.floor_le_floor (mul_le_mul_of_nonneg_left hpq hn.le)
  have hiq : (0 : ℤ) ≤ ⌊(l.length : ℝ) * q⌋ := le_trans hip hij
  have hqlt : ⌊(l.length : ℝ) * q⌋ < (l.length : ℤ) := by
    rw [Int.floor_lt]
    push_cast
    nlinarith
  have hjq := Int.toNat_of_nonneg hiq
  have hjp := Int.toNat_of_nonneg hip
  have hjn : (⌊(l.length : ℝ) * q⌋).toNat < l.length := by omega
  have hin : (⌊(l.length : ℝ) * p⌋).toNat ≤ (⌊(l.length : ℝ) * q⌋).toNat :=
    Int.toNat_le_toNat hij
  have hipn : (⌊(l.length : ℝ) * p⌋).toNat < l.length := lt_of_le_of_lt hin hjn
  simp only [percentile]
  rw [if_neg (not_lt.mpr hip), if_neg (not_lt.mpr hiq),
    List.getD_eq_getElem?_getD, List.getD_eq_getElem?_getD,
    List.getElem?_eq_getElem hipn, List.getElem?_eq_getElem hjn]
  simp only [Option.getD_some]
  exact hs.rel_get_of_le hin

theorem length_runTrials (trades : List Trade) (ctx : SimulationContext) :
    ∀ (n : ℕ) (s : ℤ), ((runTrials trades ctx n s).1).length = n := by
  intro n
  induction n with
  | zero => intro s; rfl
  | succ k ih =>
    intro s
    simp only [runTrials, List.length_cons, ih]

theorem length_sortedPnlsOf (inp : SimInputs) (cfg : SimulationConfig) (seed : ℤ) :
    (sortedPnlsOf inp cfg seed).length = cfg.numSimulations := by
  rw [sortedPnlsOf, List.length_mergeSort, List.length_map, trialsOf, length_runTrials]

/-! ### C3: the percentile ladder is non-decreasing -/

/-- C3: for at least one trial, any report returned by `runSimulation`
carries a non-decreasing percentile ladder p5 ≤ p25 ≤ median ≤ p75 ≤ p95. -/
theorem percentile_ladder (inp : SimInputs) (cfg : SimulationConfig) (seed : ℤ)
    (hn : 1 ≤ cfg.numSimulations) (r : SimulationResults)
    (h : runSimulation inp cfg seed = Except.ok r) :
    SimResultsCore.pnlP5 r.results ≤ SimResultsCore.pnlP25 r.results ∧
    SimResultsCore.pnlP25 r.results ≤ SimResultsCore.pnlMedian r.results ∧
    SimResultsCore.pnlMedian r.results ≤ SimResultsCore.pnlP75 r.results ∧
    SimResultsCore.pnlP75 r.results ≤ SimResultsCore.pnlP95 r.results := by
  rw [runSimulation] at h
  by_cases hlb : (inp.leaderboard.map LeaderboardEntry.walletAddress).length = 0
  · rw [if_pos hlb] at h
    exact absurd h (by simp)
  · rw [if_neg hlb] at h
    have hr : r = buildReport inp cfg seed := (Except.ok.inj h).symm
    subst hr
    have hs : List.Sorted (· ≤ ·) (sortedPnlsOf inp cfg seed) := by
      rw [sortedPnlsOf]
      exact sorted_mergeSort_real _
    have hl : 1 ≤ (sortedPnlsOf inp cfg seed).length := by
      rw [length_sortedPnlsOf]
      exact hn
    refine ⟨?_, ?_, ?_, ?_⟩ <;>
      · simp only [buildReport]
        exact percentile_mono _ hs hl _ _ (by norm_num) (by norm_num) (by norm_num)

/-- Witness for `percentile_ladder` at the two-trial run on `inp0`. -/
theorem percentile_ladder_witness :
    1 ≤ SimulationConfig.numSimulations cfg0 ∧
    runSimulation inp0 cfg0 1 = Except.ok (buildReport inp0 cfg0 1) ∧
    (SimResultsCore.pnlP5 (SimulationResults.results (buildReport inp0 cfg0 1)) ≤
      SimResultsCore.pnlP25 (SimulationResults.results (buildReport inp0 cfg0 1)) ∧
     SimResultsCore.pnlP25 (SimulationResults.results (buildReport inp0 cfg0 1)) ≤
      SimResultsCore.pnlMedian (SimulationResults.results (buildReport inp0 cfg0 1)) ∧
     SimResultsCore.pnlMedian (SimulationResults.results (buildReport inp0 cfg0 1)) ≤
      SimResultsCore.pnlP75 (SimulationResults.results (buildReport inp0 cfg0 1)) ∧
     SimResultsCore.pnlP75 (SimulationResults.results (buildReport inp0 cfg0 1)) ≤
      SimResultsCore.pnlP95 (SimulationResults.results (buildReport inp0 cfg0 1))) := by
  have hok : runSimulation inp0 cfg0 1 = Except.ok (buildReport inp0 cfg0 1) := by
    rw [runSimulation, if_neg (by simp [inp0])]
  exact ⟨by norm_num [cfg0], hok,
    percentile_ladder inp0 cfg0 1 (by norm_num [cfg0]) _ hok⟩

/-! ### C2: determinism -/

/-- C2: `runSimulation` is a pure function of its inputs — two executions
with the same collaborator data, configuration and seed produce equal
reports. -/
theorem runSimulation_deterministic (inp inp' : SimInputs) (cfg cfg' : SimulationConfig)
    (s s' : ℤ) (hi : inp = inp') (hc : cfg = cfg') (hs : s = s') :
    runSimulation inp cfg s = runSimulation inp' cfg' s' := by
  subst hi
  subst hc
  subst hs
  rfl

/-- Witness for `runSimulation_deterministic` at the concrete run on
`inp0`. -/
theorem runSimulation_deterministic_witness :
    inp0 = inp0 ∧ cfg0 = cfg0 ∧ (1 : ℤ) = 1 ∧
    runSimulation inp0 cfg0 1 = runSimulation inp0 cfg0 1 :=
  ⟨rfl, rfl, rfl, runSimulation_deterministic inp0 inp0 cfg0 cfg0 1 1 rfl rfl rfl⟩

/-! ### Zero-trades evaluation lemmas for C1 -/

theorem runSingleSimulation_nil (ctx : SimulationContext) (s : ℤ) :
    runSingleSimulation [] ctx s = (zeroTrial, s) := by
  simp [runSingleSimulation, initTrialState, zeroTrial]

theorem runTrials_nil (ctx : SimulationContext) :
    ∀ (n : ℕ) (s : ℤ), runTrials [] ctx n s = (List.replicate n zeroTrial, s) := by
  intro n
  induction n with
  | zero => intro s; rfl
  | succ k ih =>
    intro s
    simp [runTrials, runSingleSimulation_nil, ih, List.replicate_succ]

theorem getD_replicate_zero (n i : ℕ) : (List.replicate n (0 : ℝ)).getD i 0 = 0 := by
  induction n generalizing i with
  | zero => simp
  | succ k ih =>
    cases i with
    | zero => simp [List.replicate_succ]
    | succ j =>
      rw [List.replicate_succ]
      simp only [List.getD_cons_succ]
      exact ih j

theorem pairwise_replicate_of_refl {α : Type} {r : α → α → Prop} {a : α} (h : r a a) :
    ∀ n, (List.replicate n a).Pairwise r := by
  intro n
  induction n with
  | zero => simp
  | succ k ih =>
    rw [List.replicate_succ]
    refine List.Pairwise.cons ?_ ih
    intro b hb
    rw [List.eq_of_mem_replicate hb]
    exact h

theorem mergeSort_replicate_zero (n : ℕ) :
    (List.replicate n (0 : ℝ)).mergeSort (fun a b => decide (a ≤ b)) = List.replicate n 0 :=
  List.mergeSort_of_sorted (pairwise_replicate_of_refl (by simp) n)

theorem percentile_replicate_zero (n : ℕ) (p : ℝ) :
    percentile (List.replicate n 0) p = 0 := by
  simp only [percentile]
  split
  · rfl
  · exact getD_replicate_zero n _

theorem mean_replicate_zero (n : ℕ) : mean (List.replicate n (0 : ℝ)) = 0 := by
  simp [mean, List.sum_replicate]

theorem stdDev_replicate_zero (n : ℕ) : stdDev (List.replicate n (0 : ℝ)) = 0 := by
  simp [stdDev, List.map_replicate, mean_replicate_zero, List.sum_replicate]

theorem sharpeOf_replicate_zero (n : ℕ) : sharpeOf (List.replicate n (0 : ℝ)) = 0 := by
  simp [sharpeOf, stdDev_replicate_zero]

theorem sortedPnlsOf_no_trades (inp : SimInputs) (cfg : SimulationConfig) (seed : ℤ)
    (h : relevantTradesOf inp cfg = []) :
    sortedPnlsOf inp cfg seed = List.replicate cfg.numSimulations 0 := by
  rw [sortedPnlsOf, trialsOf, h, runTrials_nil]
  simp [List.map_replicate, zeroTrial, mergeSort_replicate_zero]

/-! ### C1: behaviour on empty inputs -/

/-- C1 (amended): `runSimulation` raises only for an empty followed-wallet
list; with followed wallets but zero in-window trades from them it does not
raise and instead returns a report whose whole PnL statistics block is
zero. -/
theorem insufficient_data_behaviour :
    (∀ (inp : SimInputs) (cfg : SimulationConfig) (seed : ℤ),
      inp.leaderboard = [] →
      runSimulation inp cfg seed = Except.error "No traders in leaderboard") ∧
    (∀ (inp : SimInputs) (cfg : SimulationConfig) (seed : ℤ),
      inp.leaderboard ≠ [] → relevantTradesOf inp cfg = [] →
      ∃ r, runSimulation inp cfg seed = Except.ok r ∧
        SimResultsCore.pnlP5 r.results = 0 ∧ SimResultsCore.pnlP25 r.results = 0 ∧
        SimResultsCore.pnlMedian r.results = 0 ∧ SimResultsCore.pnlP75 r.results = 0 ∧
        SimResultsCore.pnlP95 r.results = 0 ∧ SimResultsCore.pnlMean r.results = 0 ∧
        SimResultsCore.sharpe r.results = 0) := by
  constructor
  · intro inp cfg seed h
    rw [runSimulation, if_pos (by simp [h])]
  · intro inp cfg seed hlb h
    refine ⟨buildReport inp cfg seed,
      by rw [runSimulation, if_neg (by simp [List.length_eq_zero, hlb])],
      ?_, ?_, ?_, ?_, ?_, ?_, ?_⟩ <;>
      simp [buildReport, sortedPnlsOf_no_trades inp cfg seed h,
        percentile_replicate_zero, mean_replicate_zero, sharpeOf_replicate_zero]

/-- C1 counterexample: with one followed wallet and an empty trade window,
`runSimulation` does not raise — it returns a report whose mean and median
PnL are zero. -/
theorem zero_trades_not_error_cex :
    (inp0.tradesSince (windowStartOf inp0 cfg0)).length = 0 ∧
    SimInputs.leaderboard inp0 ≠ [] ∧
    runSimulation inp0 cfg0 1 = Except.ok (buildReport inp0 cfg0 1) ∧
    SimResultsCore.pnlMean (SimulationResults.results (buildReport inp0 cfg0 1)) = 0 ∧
    SimResultsCore.pnlMedian (SimulationResults.results (buildReport inp0 cfg0 1)) = 0 := by
  have hrel : relevantTradesOf inp0 cfg0 = [] := by
    simp [relevantTradesOf, inp0]
  refine ⟨by simp [inp0], by simp [inp0],
    by rw [runSimulation, if_neg (by simp [inp0])], ?_, ?_⟩
  · simp [buildReport, sortedPnlsOf_no_trades inp0 cfg0 1 hrel, mean_replicate_zero]
  · simp [buildReport, sortedPnlsOf_no_trades inp0 cfg0 1 hrel, percentile_replicate_zero]

/-- Witness for `insufficient_data_behaviour`: the error on `inpEmpty` and
the all-zero report on `inp0`. -/
theorem insufficient_data_behaviour_witness :
    (SimInputs.leaderboard inpEmpty = [] ∧
      runSimulation inpEmpty cfg0 1 = Except.error "No traders in leaderboard") ∧
    (SimInputs.leaderboard inp0 ≠ [] ∧ relevantTradesOf inp0 cfg0 = [] ∧
      ∃ r, runSimulation inp0 cfg0 1 = Except.ok r ∧
        SimResultsCore.pnlP5 r.results = 0 ∧ SimResultsCore.pnlP25 r.results = 0 ∧
        SimResultsCore.pnlMedian r.results = 0 ∧ SimResultsCore.pnlP75 r.results = 0 ∧
        SimResultsCore.pnlP95 r.results = 0 ∧ SimResultsCore.pnlMean r.results = 0 ∧
        SimResultsCore.sharpe r.results = 0) := by
  have hlb : SimInputs.leaderboard inp0 ≠ [] := by simp [inp0]
  have hrel : relevantTradesOf inp0 cfg0 = [] := by
    simp [relevantTradesOf, inp0]
  exact ⟨⟨rfl, insufficient_data_behaviour.1 inpEmpty cfg0 1 rfl⟩,
    hlb, hrel, insufficient_data_behaviour.2 inp0 cfg0 1 hlb hrel⟩

/-! ### C10: no lower bound on cash -/

theorem processTrade_buy_cash (ctx : SimulationContext) (st : TrialState) (t : Trade)
    (hbuy : t.side = Side.BUY)
    (h1 : ¬ tradeUsdOf t < SimulationConfig.minTradeUsd ctx.cfg)
    (h2 : ¬ clippedSizeOf ctx st t < 1) :
    TrialState.cash (processTrade ctx st t) = st.cash - actualSizeUsdOf ctx st t ∧
    TrialState.marketExposure (processTrade ctx st t) =
      mapSet st.marketExposure (Trade.conditionId t)
        (currentExposureOf st t + actualSizeUsdOf ctx st t) := by
  simp only [processTrade, if_neg h1, if_neg h2, if_pos hbuy]
  cases hm : mapGet st.positions (posKeyOf t) with
  | none => refine ⟨?_, ?_⟩ <;> trivial
  | some ex => refine ⟨?_, ?_⟩ <;> trivial

/-- C10: the trial runner enforces no lower bound on cash — starting from
the context the orchestrator builds for a 10 USD bankroll with a 100%
per-market cap, three followed 100 USD BUY trades on three distinct
markets drive the trial's cash balance to −5 USD. -/
theorem cash_can_go_negative :
    ctxOf inpNeg cfgNeg = ctxNeg ∧
    TrialState.cash
      (List.foldl (processTrade ctxNeg) (initTrialState ctxNeg 1)
        (relevantTradesOf inpNeg cfgNeg)) < 0 := by
  have hfil : (inpNeg.tradesSince (windowStartOf inpNeg cfgNeg)).filter
      (fun t => ((inpNeg.leaderboard.map LeaderboardEntry.walletAddress).contains
        t.walletAddress)) = [buyTrade "A", buyTrade "B", buyTrade "C"] := by
    simp [inpNeg, buyTrade]
  have hrel : relevantTradesOf inpNeg cfgNeg = [buyTrade "A", buyTrade "B", buyTrade "C"] := by
    rw [relevantTradesOf, hfil]
    apply List.mergeSort_of_sorted
    simp [List.pairwise_cons, buyTrade]
  have hctx : ctxOf inpNeg cfgNeg = ctxNeg := by
    simp only [ctxOf]
    rw [hrel]
    norm_num [ctxNeg, cfgNeg, inpNeg, traderVolumesOf, uniqueConditionIdsOf, marketCacheOf,
      mapSet, mapGet, orElseNum, tradeUsdOf, buyTrade, List.foldl, max_def]
  have hmin : ∀ cid : String,
      ¬ tradeUsdOf (buyTrade cid) < SimulationConfig.minTradeUsd (SimulationContext.cfg ctxNeg) := by
    intro cid
    norm_num [tradeUsdOf, orElseNum, buyTrade, ctxNeg, cfgNeg]
  have hclip : ∀ (st : TrialState) (cid : String),
      currentExposureOf st (buyTrade cid) = 0 →
      clippedSizeOf ctxNeg st (buyTrade cid) = 5 := by
    intro st cid h
    simp only [clippedSizeOf, positionSizeUsdOf, h, ctxNeg, cfgNeg]
    norm_num [min_def, max_def]
  have hact : ∀ (st : TrialState) (cid : String),
      currentExposureOf st (buyTrade cid) = 0 →
      actualSizeUsdOf ctxNeg st (buyTrade cid) = 5 := by
    intro st cid h
    rw [actualSizeUsdOf, fillOf_fillFraction, mul_one, hclip st cid h]
  have hne : ∀ (st : TrialState) (cid : String),
      currentExposureOf st (buyTrade cid) = 0 →
      ¬ clippedSizeOf ctxNeg st (buyTrade cid) < 1 := by
    intro st cid h
    rw [hclip st cid h]
    norm_num
  refine ⟨hctx, ?_⟩
  rw [hrel]
  simp only [List.foldl]
  have hcash0 : TrialState.cash (initTrialState ctxNeg 1) = 10 := by
    simp [initTrialState, ctxNeg]
  have hexp0 : currentExposureOf (initTrialState ctxNeg 1) (buyTrade "A") = 0 := by
    simp [currentExposureOf, initTrialState, mapGet, orElseNum]
  have h1 := processTrade_buy_cash ctxNeg (initTrialState ctxNeg 1) (buyTrade "A")
    rfl (hmin "A") (hne _ "A" hexp0)
  set st1 := processTrade ctxNeg (initTrialState ctxNeg 1) (buyTrade "A") with hst1
  have hcash1 : TrialState.cash st1 = 5 := by
    rw [h1.1, hcash0, hact _ "A" hexp0]
    norm_num
  have hexp1 : TrialState.marketExposure st1 = [("A", (5 : ℝ))] := by
    rw [h1.2, hexp0, hact _ "A" hexp0]
    norm_num [mapSet, buyTrade, initTrialState]
  have hexpB : currentExposureOf st1 (buyTrade "B") = 0 := by
    rw [currentExposureOf, hexp1]
    simp [mapGet, orElseNum, buyTrade]
  have h2 := processTrade_buy_cash ctxNeg st1 (buyTrade "B") rfl (hmin "B") (hne _ "B" hexpB)
  set st2 := processTrade ctxNeg st1 (buyTrade "B") with hst2
  have hcash2 : TrialState.cash st2 = 0 := by
    rw [h2.1, hcash1, hact _ "B" hexpB]
    norm_num
  have hexp2 : TrialState.marketExposure st2 = [("A", (5 : ℝ)), ("B", 5)] := by
    rw [h2.2, hexp1, hexpB, hact _ "B" hexpB]
    norm_num [mapSet, buyTrade]
    decide
  have hexpC : currentExposureOf st2 (buyTrade "C") = 0 := by
    rw [currentExposureOf, hexp2]
    simp [mapGet, orElseNum, buyTrade]
  have h3 := processTrade_buy_cash ctxNeg st2 (buyTrade "C") rfl (hmin "C") (hne _ "C" hexpC)
  rw [h3.1, hcash2, hact _ "C" hexpC]
  norm_num

end Polymarket

end
